import Mathlib

/-!
Shallow embedding of the RPC dispatcher in src/src/rpc.rs
(session-open-group-server), together with models of the third-party
functions the dispatcher calls into:

* serde_json deserialization of the query string into QueryOptions
  (JSON value grammar plus serde's derived struct visitor, which by
  default ignores unknown fields since QueryOptions carries no
  deny_unknown_fields attribute);
* the http crate's Uri parser, exact for origin-form endpoints
  (leading slash), approximate for the authority/absolute forms that
  no routed endpoint uses;
* Rust's str::parse::<i64> for path parameters.

The handler collaborators (handlers.rs) and the message schema
(models::Message) are not part of the sources under verification; per
the specification they are external collaborators, so the dispatcher is
parameterized over them.
-/

namespace Rpc

/-- JSON whitespace accepted by serde_json between tokens. -/
def jsonWs (c : Char) : Bool :=
  c = ' ' || c = '\t' || c = '\n' || c = Char.ofNat 13

def skipWs (s : List Char) : List Char :=
  s.dropWhile jsonWs

/-- Value of a hexadecimal digit, for JSON \u escapes. -/
def hexVal (c : Char) : Option Nat :=
  if '0' ≤ c ∧ c ≤ '9' then some (c.toNat - 48)
  else if 'a' ≤ c ∧ c ≤ 'f' then some (c.toNat - 87)
  else if 'A' ≤ c ∧ c ≤ 'F' then some (c.toNat - 55)
  else none

def digitsToNat (ds : List Char) : Nat :=
  ds.foldl (fun acc d => 10 * acc + (d.toNat - 48)) 0

/-- JSON values as produced by serde_json's parser.  Numbers with a
fraction or exponent are floats; their numeric value is irrelevant to
QueryOptions decoding (both integer fields reject floats), so only the
flag is kept.  Integer literals keep their exact value; range checks
happen at field-decoding time, which is observationally equivalent. -/
inductive JVal where
  | null
  | bool (b : Bool)
  | int (n : Int)
  | float
  | str (s : List Char)
  | arr (xs : List JVal)
  | obj (kvs : List (List Char × JVal))

/-- Body of a JSON string literal after the opening quote: returns the
decoded characters and the input remaining after the closing quote.
Escapes follow RFC 8259 as serde_json implements them, including
surrogate pairs; raw control characters are rejected. -/
def parseStrBody : List Char → Option (List Char × List Char)
  | [] => none
  | c :: rest =>
    if c = '"' then some ([], rest)
    else if c = '\\' then
      match rest with
      | [] => none
      | e :: r1 =>
        if e = '"' then (parseStrBody r1).map (fun p => ('"' :: p.1, p.2))
        else if e = '\\' then (parseStrBody r1).map (fun p => ('\\' :: p.1, p.2))
        else if e = '/' then (parseStrBody r1).map (fun p => ('/' :: p.1, p.2))
        else if e = 'b' then (parseStrBody r1).map (fun p => (Char.ofNat 8 :: p.1, p.2))
        else if e = 'f' then (parseStrBody r1).map (fun p => (Char.ofNat 12 :: p.1, p.2))
        else if e = 'n' then (parseStrBody r1).map (fun p => ('\n' :: p.1, p.2))
        else if e = 'r' then (parseStrBody r1).map (fun p => (Char.ofNat 13 :: p.1, p.2))
        else if e = 't' then (parseStrBody r1).map (fun p => ('\t' :: p.1, p.2))
        else if e = 'u' then
          match r1 with
          | h1 :: h2 :: h3 :: h4 :: r2 =>
            match hexVal h1, hexVal h2, hexVal h3, hexVal h4 with
            | some a, some b, some c2, some d =>
              let n := ((a * 16 + b) * 16 + c2) * 16 + d
              if 0xD800 ≤ n ∧ n ≤ 0xDBFF then
                match r2 with
                | '\\' :: 'u' :: g1 :: g2 :: g3 :: g4 :: r3 =>
                  match hexVal g1, hexVal g2, hexVal g3, hexVal g4 with
                  | some a2, some b2, some c3, some d2 =>
                    let m := ((a2 * 16 + b2) * 16 + c3) * 16 + d2
                    if 0xDC00 ≤ m ∧ m ≤ 0xDFFF then
                      (parseStrBody r3).map
                        (fun p => (Char.ofNat (0x10000 + (n - 0xD800) * 0x400 + (m - 0xDC00)) :: p.1, p.2))
                    else none
                  | _, _, _, _ => none
                | _ => none
              else if 0xDC00 ≤ n ∧ n ≤ 0xDFFF then none
              else (parseStrBody r2).map (fun p => (Char.ofNat n :: p.1, p.2))
            | _, _, _, _ => none
          | _ => none
        else none
    else if c.toNat < 0x20 then none
    else (parseStrBody rest).map (fun p => (c :: p.1, p.2))

/-- JSON number literal starting at a '-' or a digit: sign, integer part
with serde's leading-zero rule, optional fraction and exponent. -/
def parseNumber (s : List Char) : Option (JVal × List Char) :=
  let negRes : Bool × List Char :=
    match s with
    | '-' :: rest => (true, rest)
    | _ => (false, s)
  let neg := negRes.1
  let s1 := negRes.2
  let intDigits := s1.takeWhile Char.isDigit
  let s2 := s1.dropWhile Char.isDigit
  if intDigits = [] then none
  else if 1 < intDigits.length ∧ intDigits.headD 'x' = '0' then none
  else
    let fracRes : Option (Bool × List Char) :=
      match s2 with
      | '.' :: rest =>
        let fd := rest.takeWhile Char.isDigit
        if fd = [] then none else some (true, rest.dropWhile Char.isDigit)
      | _ => some (false, s2)
    match fracRes with
    | none => none
    | some (hasFrac, s3) =>
      let expRes : Option (Bool × List Char) :=
        match s3 with
        | c :: rest =>
          if c = 'e' ∨ c = 'E' then
            let rest2 : List Char :=
              match rest with
              | '+' :: r => r
              | '-' :: r => r
              | _ => rest
            let ed := rest2.takeWhile Char.isDigit
            if ed = [] then none else some (true, rest2.dropWhile Char.isDigit)
          else some (false, s3)
        | [] => some (false, s3)
      match expRes with
      | none => none
      | some (hasExp, s4) =>
        if hasFrac ∨ hasExp then some (JVal.float, s4)
        else
          let n : Int := Int.ofNat (digitsToNat intDigits)
          some (JVal.int (if neg then -n else n), s4)

def lbrace : Char := Char.ofNat 123
def rbrace : Char := Char.ofNat 125

mutual

/-- JSON value parser (fuel-indexed; fuel bounds the recursion depth and
is supplied generously by parseJson, every recursive call sitting behind
at least one consumed character). -/
def parseVal : Nat → List Char → Option (JVal × List Char)
  | 0, _ => none
  | Nat.succ fuel, s0 =>
    match skipWs s0 with
    | [] => none
    | c :: r =>
      if c = 'n' then
        match r with
        | 'u' :: 'l' :: 'l' :: r2 => some (.null, r2)
        | _ => none
      else if c = 't' then
        match r with
        | 'r' :: 'u' :: 'e' :: r2 => some (.bool true, r2)
        | _ => none
      else if c = 'f' then
        match r with
        | 'a' :: 'l' :: 's' :: 'e' :: r2 => some (.bool false, r2)
        | _ => none
      else if c = '"' then
        match parseStrBody r with
        | some (cs, r2) => some (.str cs, r2)
        | none => none
      else if c = '[' then
        match skipWs r with
        | ']' :: r2 => some (.arr [], r2)
        | r2 =>
          match parseElems fuel r2 with
          | some (vs, r3) => some (.arr vs, r3)
          | none => none
      else if c = lbrace then
        match skipWs r with
        | [] => none
        | d :: r2 =>
          if d = rbrace then some (.obj [], r2)
          else
            match parseMembers fuel (d :: r2) with
            | some (ms, r3) => some (.obj ms, r3)
            | none => none
      else if c = '-' || c.isDigit then parseNumber (c :: r)
      else none

/-- Array elements: a value, then ',' and more elements or ']'. -/
def parseElems : Nat → List Char → Option (List JVal × List Char)
  | 0, _ => none
  | Nat.succ fuel, s =>
    match parseVal fuel s with
    | none => none
    | some (v, r) =>
      match skipWs r with
      | ',' :: r2 =>
        match parseElems fuel r2 with
        | some (vs, r3) => some (v :: vs, r3)
        | none => none
      | ']' :: r2 => some ([v], r2)
      | _ => none

/-- Object members: a quoted key, ':', a value, then ',' or the closing
brace. -/
def parseMembers : Nat → List Char → Option (List (List Char × JVal) × List Char)
  | 0, _ => none
  | Nat.succ fuel, s =>
    match skipWs s with
    | '"' :: r =>
      match parseStrBody r with
      | none => none
      | some (key, r1) =>
        match skipWs r1 with
        | ':' :: r2 =>
          match parseVal fuel r2 with
          | none => none
          | some (v, r3) =>
            match skipWs r3 with
            | [] => none
            | d :: r4 =>
              if d = ',' then
                match parseMembers fuel r4 with
                | some (ms, r5) => some ((key, v) :: ms, r5)
                | none => none
              else if d = rbrace then some ([(key, v)], r4)
              else none
        | _ => none
    | _ => none

end

/-- serde_json::from_str's framing: one JSON value, then at most
trailing whitespace. -/
def parseJson (s : List Char) : Option JVal :=
  match parseVal (2 * s.length + 16) s with
  | some (v, r) => if skipWs r = [] then some v else none
  | none => none

/-- QueryOptions from src/src/rpc.rs: two optional fields, limit a u16
and from_server_id an i64; Nat / Int with the machine ranges enforced at
decode time. -/
structure QueryOptions where
  limit : Option Nat
  from_server_id : Option Int
deriving DecidableEq, Repr

/-- serde deserialization of an Option u16 field: null becomes None, an
integer in u16 range becomes Some; everything else is an error. -/
def decodeOptU16 : JVal → Option (Option Nat)
  | .null => some none
  | .int n => if 0 ≤ n ∧ n ≤ 65535 then some (some n.toNat) else none
  | _ => none

/-- serde deserialization of an Option i64 field. -/
def decodeOptI64 : JVal → Option (Option Int)
  | .null => some none
  | .int n => if -(2 ^ 63) ≤ n ∧ n ≤ 2 ^ 63 - 1 then some (some n) else none
  | _ => none

/-- serde's derived map visitor for QueryOptions: duplicate known fields
are an error, unknown fields are skipped (QueryOptions carries no
deny_unknown_fields attribute, so serde's default applies), and a known
field absent at the end defaults to None because the field type is
Option. The accumulators hold the decoded value once the field has been
seen. -/
def decodeQOFields : List (List Char × JVal) → Option (Option Nat) → Option (Option Int) →
    Option QueryOptions
  | [], limAcc, fsiAcc => some ⟨limAcc.getD none, fsiAcc.getD none⟩
  | (k, v) :: rest, limAcc, fsiAcc =>
    if k = "limit".toList then
      match limAcc with
      | some _ => none
      | none =>
        match decodeOptU16 v with
        | none => none
        | some lv => decodeQOFields rest (some lv) fsiAcc
    else if k = "from_server_id".toList then
      match fsiAcc with
      | some _ => none
      | none =>
        match decodeOptI64 v with
        | none => none
        | some fv => decodeQOFields rest limAcc (some fv)
    else decodeQOFields rest limAcc fsiAcc

/-- serde's derived seq visitor for QueryOptions: exactly the two fields
in declaration order (serde_json rejects both missing and trailing
elements). -/
def decodeQOSeq : List JVal → Option QueryOptions
  | [a, b] =>
    match decodeOptU16 a, decodeOptI64 b with
    | some l, some f => some ⟨l, f⟩
    | _, _ => none
  | _ => none

def decodeQueryOptions : JVal → Option QueryOptions
  | .obj ms => decodeQOFields ms none none
  | .arr vs => decodeQOSeq vs
  | _ => none

/-- serde_json::from_str::<QueryOptions> applied to the raw query
string, exactly as handle_get_rpc_call does (rpc.rs line 47). -/
def parseQueryOptions (q : List Char) : Option QueryOptions :=
  match parseJson q with
  | none => none
  | some v => decodeQueryOptions v

/-- Parsed URI as the dispatcher observes it through the http crate:
the raw path and the raw query string (None when no question mark). -/
structure Uri where
  path : List Char
  query : Option (List Char)
deriving DecidableEq, Repr

/-- Bytes the http crate accepts unencoded in a URI path (http 0.2,
uri/path.rs): 0x21, 0x24-0x3B, 0x3D, 0x40-0x5F, 0x61-0x7A, 0x7C, 0x7E.
Notably braces, double quote, angle brackets, backtick and space are
rejected. -/
def isUriPathChar (c : Char) : Bool :=
  c.toNat = 0x21 || (0x24 ≤ c.toNat && c.toNat ≤ 0x3B) || c.toNat = 0x3D ||
  (0x40 ≤ c.toNat && c.toNat ≤ 0x5F) || (0x61 ≤ c.toNat && c.toNat ≤ 0x7A) ||
  c.toNat = 0x7C || c.toNat = 0x7E

/-- Bytes the http crate accepts in a query string: 0x21, 0x24-0x3B,
0x3D, 0x3F-0x7E. Braces are allowed here; the double quote (0x22) is
not. -/
def isUriQueryChar (c : Char) : Bool :=
  c.toNat = 0x21 || (0x24 ≤ c.toNat && c.toNat ≤ 0x3B) || c.toNat = 0x3D ||
  (0x3F ≤ c.toNat && c.toNat ≤ 0x7E)

/-- Scan the path part: stops at '?' (returning the rest for query
scanning) or '#' (fragment, discarded); any other non-path byte is an
error. -/
def scanPath : List Char → Option (List Char × Option (List Char))
  | [] => some ([], none)
  | c :: rest =>
    if c = '?' then some ([], some rest)
    else if c = '#' then some ([], none)
    else if isUriPathChar c then
      match scanPath rest with
      | some (p, q) => some (c :: p, q)
      | none => none
    else none

/-- Scan the query part up to an optional '#' fragment. -/
def scanQuery : List Char → Option (List Char)
  | [] => some []
  | c :: rest =>
    if c = '#' then some []
    else if isUriQueryChar c then (scanQuery rest).map (c :: ·)
    else none

/-- http::uri::PathAndQuery::from_shared for origin-form strings, plus
the path() accessor's convention that an empty path reads as "/". -/
def parsePathAndQuery (s : List Char) : Option Uri :=
  match scanPath s with
  | none => none
  | some (p, none) => some ⟨if p = [] then "/".toList else p, none⟩
  | some (p, some qrest) =>
    match scanQuery qrest with
    | none => none
    | some q => some ⟨if p = [] then "/".toList else p, some q⟩

def isSchemeChar (c : Char) : Bool :=
  c.isAlphanum || c = '+' || c = '-' || c = '.'

/-- Characters the http crate accepts inside an authority (approximate;
no origin-form endpoint reaches this set). -/
def isAuthorityChar (c : Char) : Bool :=
  c.isAlphanum || ("-._~%!$&*+,;=:@[]".toList).contains c

/-- Split off a leading "scheme://" when present. -/
def splitScheme (s : List Char) : Option (List Char × List Char) :=
  let pre := s.takeWhile (fun c => c ≠ ':')
  let post := s.dropWhile (fun c => c ≠ ':')
  match post with
  | ':' :: '/' :: '/' :: rest =>
    if pre ≠ [] ∧ pre.all isSchemeChar then some (pre, rest) else none
  | _ => none

/-- Model of http::Uri parsing for strings that do not begin with a
slash: either "scheme://authority[/path[?query]]", or a bare authority
(in which case the whole string must be the authority and the path reads
as empty). This branch is approximate; every endpoint the dispatcher
routes is origin-form and never reaches it. -/
def parseNonOriginUri (s : List Char) : Option Uri :=
  match splitScheme s with
  | some (_, rest) =>
    let auth := rest.takeWhile (fun c => ¬ (c = '/' || c = '?' || c = '#'))
    let after := rest.dropWhile (fun c => ¬ (c = '/' || c = '?' || c = '#'))
    if auth = [] ∨ ¬ auth.all isAuthorityChar then none
    else
      match after with
      | [] => some ⟨"/".toList, none⟩
      | _ => parsePathAndQuery after
  | none =>
    if s ≠ [] ∧ s.all isAuthorityChar then some ⟨[], none⟩ else none

/-- rpc_call.endpoint.parse::<http::Uri>() (rpc.rs line 24): empty
strings fail; "*" is the asterisk form; a leading slash selects the
origin form, whose byte-level validation is modelled exactly. -/
def parseUri (endpoint : String) : Option Uri :=
  match endpoint.toList with
  | [] => none
  | c :: rest =>
    if c = '/' then parsePathAndQuery (c :: rest)
    else if c = '*' ∧ rest = [] then some ⟨['*'], none⟩
    else parseNonOriginUri (c :: rest)

/-- lsrpc::RpcCall as the dispatcher consumes it: method, endpoint and
body strings. -/
structure RpcCall where
  method : String
  endpoint : String
  body : String
deriving DecidableEq, Repr

/-- Handler collaborators. Modelled from the spec: handlers.rs and
models::Message are not among the sources under verification; the spec
(sections 1 and 6) names them external collaborators with exactly these
operations, so the dispatcher is parameterized over them. decode_message
models serde_json::from_str::<models::Message> on the POST body, whose
schema the spec leaves to the insertion handler ("this dispatcher only
guarantees syntactic decodability"); the storage pool handle the Rust
code threads through is absorbed into the collaborator closures, which
the dispatcher only ever forwards. -/
structure Handlers (μ ρ : Type) where
  get_messages : QueryOptions → ρ
  get_deleted_messages : QueryOptions → ρ
  get_moderators : ρ
  get_banned_public_keys : ρ
  get_member_count : ρ
  decode_message : String → Option μ
  insert_message : μ → ρ
  ban : String → ρ
  delete_message : Int → ρ
  unban : List Char → ρ

/-- Dispatch outcome: either the invoked handler's result, untouched, or
the dispatcher's own InvalidRequestError rejection. -/
inductive Outcome (ρ : Type) where
  | ok (r : ρ)
  | invalidRequest
deriving DecidableEq, Repr

/-- Rust's str::parse::<i64>: optional single sign, one or more digits,
value within the i64 range (overflow is an error). -/
def parseI64 (s : List Char) : Option Int :=
  match s with
  | [] => none
  | c :: rest =>
    let signRes : Bool × List Char :=
      if c = '-' then (true, rest)
      else if c = '+' then (false, rest)
      else (false, c :: rest)
    let digits := signRes.2
    if digits = [] then none
    else if digits.all Char.isDigit then
      let v : Int :=
        if signRes.1 then -(Int.ofNat (digitsToNat digits)) else Int.ofNat (digitsToNat digits)
      if -(2 ^ 63) ≤ v ∧ v ≤ 2 ^ 63 - 1 then some v else none
    else none

/-- Rust's str::split('/'): always at least one piece, empty pieces
between adjacent separators and at the ends. -/
def splitSlash : List Char → List (List Char)
  | [] => [[]]
  | c :: rest =>
    if c = '/' then [] :: splitSlash rest
    else
      match splitSlash rest with
      | r :: rs => (c :: r) :: rs
      | [] => [[c]]

/-- Query option extraction in handle_get_rpc_call (rpc.rs lines 45-55):
defaults when the URI has no query string, otherwise
serde_json::from_str on the raw query. -/
def getQueryOptions (uri : Uri) : Option QueryOptions :=
  match uri.query with
  | some q => parseQueryOptions q
  | none => some ⟨none, none⟩

/-- handle_get_rpc_call (rpc.rs lines 43-68): decode query options, then
match the path exactly against the five GET routes. -/
def handle_get_rpc_call {μ ρ : Type} (h : Handlers μ ρ) (uri : Uri) : Outcome ρ :=
  match getQueryOptions uri with
  | none => .invalidRequest
  | some query_options =>
    if uri.path = "/messages".toList then .ok (h.get_messages query_options)
    else if uri.path = "/deleted_messages".toList then .ok (h.get_deleted_messages query_options)
    else if uri.path = "/moderators".toList then .ok h.get_moderators
    else if uri.path = "/block_list".toList then .ok h.get_banned_public_keys
    else if uri.path = "/member_count".toList then .ok h.get_member_count
    else .invalidRequest

/-- handle_post_rpc_call (rpc.rs lines 70-87): /messages decodes the
body as a message before invoking the insertion handler; /block_list
passes the body through verbatim to the ban handler. -/
def handle_post_rpc_call {μ ρ : Type} (h : Handlers μ ρ) (c : RpcCall) (uri : Uri) : Outcome ρ :=
  if uri.path = "/messages".toList then
    match h.decode_message c.body with
    | none => .invalidRequest
    | some message => .ok (h.insert_message message)
  else if uri.path = "/block_list".toList then .ok (h.ban c.body)
  else .invalidRequest

/-- handle_delete_rpc_call (rpc.rs lines 89-119): raw string prefix
tests on the path, then a two-segment split of path[1..] and parameter
extraction. -/
def handle_delete_rpc_call {μ ρ : Type} (h : Handlers μ ρ) (uri : Uri) : Outcome ρ :=
  if "/messages".toList.isPrefixOf uri.path then
    let components := splitSlash uri.path.tail
    if components.length ≠ 2 then .invalidRequest
    else
      match parseI64 (components.getD 1 []) with
      | none => .invalidRequest
      | some server_id => .ok (h.delete_message server_id)
  else if "/block_list".toList.isPrefixOf uri.path then
    let components := splitSlash uri.path.tail
    if components.length ≠ 2 then .invalidRequest
    else .ok (h.unban (components.getD 1 []))
  else .invalidRequest

/-- handle_rpc_call (rpc.rs lines 22-41): URI validation first, then the
case-sensitive method match with InvalidRequestError as the only
fall-through. -/
def handle_rpc_call {μ ρ : Type} (h : Handlers μ ρ) (c : RpcCall) : Outcome ρ :=
  match parseUri c.endpoint with
  | none => .invalidRequest
  | some uri =>
    if c.method = "GET" then handle_get_rpc_call h uri
    else if c.method = "POST" then handle_post_rpc_call h c uri
    else if c.method = "DELETE" then handle_delete_rpc_call h uri
    else .invalidRequest

/-- Record of which handler a dispatch invoked, with its arguments; used
to instantiate the abstract collaborators in concrete witnesses. -/
inductive Invocation where
  | getMessages (o : QueryOptions)
  | getDeletedMessages (o : QueryOptions)
  | getModerators
  | getBannedPublicKeys
  | getMemberCount
  | insertMessage (m : Nat)
  | banBody (b : String)
  | deleteMessage (id : Int)
  | unbanKey (k : List Char)
deriving DecidableEq, Repr

/-- Concrete collaborators that merely record their invocation; the
message decoder reads the body as a decimal Nat so that both decodable
and undecodable bodies exist. -/
def traceHandlers : Handlers Nat Invocation where
  get_messages := .getMessages
  get_deleted_messages := .getDeletedMessages
  get_moderators := .getModerators
  get_banned_public_keys := .getBannedPublicKeys
  get_member_count := .getMemberCount
  decode_message := fun s =>
    if s.toList ≠ [] ∧ s.toList.all Char.isDigit then some (digitsToNat s.toList) else none
  insert_message := .insertMessage
  ban := .banBody
  delete_message := .deleteMessage
  unban := .unbanKey

theorem splitSlash_no_slash (k : List Char) (hk : k.all (· != '/') = true) :
    splitSlash k = [k] := by
  induction k with
  | nil => rfl
  | cons c cs ih =>
    simp only [List.all_cons, Bool.and_eq_true, bne_iff_ne, ne_eq] at hk
    simp only [splitSlash, if_neg hk.1, ih hk.2]

theorem splitSlash_two (pre k : List Char) (hp : pre.all (· != '/') = true)
    (hk : k.all (· != '/') = true) :
    splitSlash (pre ++ '/' :: k) = [pre, k] := by
  induction pre with
  | nil => simp [splitSlash, splitSlash_no_slash k hk]
  | cons c cs ih =>
    simp only [List.all_cons, Bool.and_eq_true, bne_iff_ne, ne_eq] at hp
    simp only [List.cons_append, splitSlash, if_neg hp.1, List.append_eq, ih hp.2]

/-- Claim C3: a call whose method is not exactly one of GET, POST,
DELETE (case-sensitive) is rejected with InvalidRequest and, since the
collaborators are universally quantified, no handler is invoked. -/
theorem c3_unknown_method_rejected {μ ρ : Type} (h : Handlers μ ρ) (c : RpcCall)
    (h1 : c.method ≠ "GET") (h2 : c.method ≠ "POST") (h3 : c.method ≠ "DELETE") :
    handle_rpc_call h c = .invalidRequest := by
  unfold handle_rpc_call
  cases parseUri c.endpoint with
  | none => rfl
  | some uri => simp [h1, h2, h3]

/-- Witness for C3 at the lowercase method "put". -/
theorem c3_witness :
    ("put" ≠ "GET" ∧ "put" ≠ "POST" ∧ "put" ≠ "DELETE") ∧
      handle_rpc_call traceHandlers ⟨"put", "/messages", ""⟩ = .invalidRequest :=
  ⟨by decide,
    c3_unknown_method_rejected traceHandlers ⟨"put", "/messages", ""⟩
      (by decide) (by decide) (by decide)⟩

/-- Claim C4: an endpoint that fails URI parsing is rejected with
InvalidRequest before any method branching: the method is universally
quantified and never examined, and no handler is invoked. -/
theorem c4_invalid_uri_rejected {μ ρ : Type} (h : Handlers μ ρ) (method endpoint body : String)
    (hu : parseUri endpoint = none) :
    handle_rpc_call h ⟨method, endpoint, body⟩ = .invalidRequest := by
  simp [handle_rpc_call, hu]

/-- Witness for C4 at the empty endpoint. -/
theorem c4_witness :
    parseUri "" = none ∧ handle_rpc_call traceHandlers ⟨"GET", "", ""⟩ = .invalidRequest :=
  ⟨rfl, c4_invalid_uri_rejected traceHandlers "GET" "" "" rfl⟩

/-- Claim C9: the dispatcher is a pure function of the call's three
fields and the collaborators, so dispatching the same call twice against
the same (pure) collaborators produces the same outcome; there is no
state the dispatcher could carry between the two dispatches. -/
theorem c9_dispatch_deterministic {μ ρ : Type} (h : Handlers μ ρ) (c₁ c₂ : RpcCall)
    (hm : c₁.method = c₂.method) (he : c₁.endpoint = c₂.endpoint) (hb : c₁.body = c₂.body) :
    handle_rpc_call h c₁ = handle_rpc_call h c₂ := by
  obtain ⟨m₁, e₁, b₁⟩ := c₁
  obtain ⟨m₂, e₂, b₂⟩ := c₂
  dsimp only at hm he hb
  subst hm he hb
  rfl

/-- Witness for C9: the same well-formed GET call dispatched twice. -/
theorem c9_witness :
    handle_rpc_call traceHandlers ⟨"GET", "/messages", ""⟩ =
      handle_rpc_call traceHandlers ⟨"GET", "/messages", ""⟩ :=
  c9_dispatch_deterministic traceHandlers ⟨"GET", "/messages", ""⟩ ⟨"GET", "/messages", ""⟩
    rfl rfl rfl

/-- Claim C1, code behavior: the GET dispatcher hands the raw query
string to serde_json::from_str, so the standard query
limit=10&from_server_id=5 fails to decode as JSON and the call is
rejected with InvalidRequest instead of reaching the list-messages
handler; a GET with no query string does reach it with both options
unset. -/
theorem c1_query_string_code_behavior :
    handle_rpc_call traceHandlers ⟨"GET", "/messages?limit=10&from_server_id=5", ""⟩ =
      .invalidRequest ∧
    handle_rpc_call traceHandlers ⟨"GET", "/messages", ""⟩ =
      .ok (.getMessages ⟨none, none⟩) := by
  exact ⟨rfl, rfl⟩

/-- Claim C2, counterexample: a query string that is a well-formed
options object with the unknown extra field "foo" does not make
decoding fail; the list-messages handler is invoked, so the claimed
InvalidRequest rejection is false at this input. -/
theorem c2_counterexample_unknown_field :
    parseQueryOptions "\x7b\"limit\":3,\"foo\":1\x7d".toList ≠ none ∧
    handle_get_rpc_call traceHandlers
        ⟨"/messages".toList, some "\x7b\"limit\":3,\"foo\":1\x7d".toList⟩ =
      .ok (.getMessages ⟨some 3, none⟩) := by
  exact ⟨by decide, rfl⟩

/-- Claim C2 as amended: serde's default applies (QueryOptions has no
deny_unknown_fields), so unknown fields are ignored rather than
rejected: any query string that decodes as the options object — the
counterexample shows this includes objects with extra fields — leads to
the handler being invoked with the recognized fields. -/
theorem c2_unknown_fields_ignored {μ ρ : Type} (h : Handlers μ ρ) (q : List Char)
    (opts : QueryOptions) (hq : parseQueryOptions q = some opts) :
    handle_get_rpc_call h ⟨"/messages".toList, some q⟩ = .ok (h.get_messages opts) := by
  simp [handle_get_rpc_call, getQueryOptions, hq]

/-- Witness for the amended C2 at the unknown-field query. -/
theorem c2_witness :
    parseQueryOptions "\x7b\"limit\":3,\"foo\":1\x7d".toList = some ⟨some 3, none⟩ ∧
    handle_get_rpc_call traceHandlers
        ⟨"/messages".toList, some "\x7b\"limit\":3,\"foo\":1\x7d".toList⟩ =
      .ok (.getMessages ⟨some 3, none⟩) :=
  ⟨by decide, c2_unknown_fields_ignored traceHandlers _ _ (by decide)⟩

/-- Claim C5: for a POST call routed to /messages, a body the message
decoder rejects yields InvalidRequest with the insertion handler never
invoked, and a body it accepts is handed to the insertion handler whose
result is returned unchanged. -/
theorem c5_post_messages_decode {μ ρ : Type} (h : Handlers μ ρ) (c : RpcCall) (uri : Uri)
    (hm : c.method = "POST") (hu : parseUri c.endpoint = some uri)
    (hp : uri.path = "/messages".toList) :
    (h.decode_message c.body = none → handle_rpc_call h c = .invalidRequest) ∧
    (∀ m, h.decode_message c.body = some m →
      handle_rpc_call h c = .ok (h.insert_message m)) := by
  constructor
  · intro hd
    simp [handle_rpc_call, handle_post_rpc_call, hu, hm, hp, hd]
  · intro m hd
    simp [handle_rpc_call, handle_post_rpc_call, hu, hm, hp, hd]

/-- Witness for C5: an undecodable and a decodable POST body. -/
theorem c5_witness :
    handle_rpc_call traceHandlers ⟨"POST", "/messages", "abc"⟩ = .invalidRequest ∧
    handle_rpc_call traceHandlers ⟨"POST", "/messages", "123"⟩ =
      .ok (.insertMessage 123) :=
  ⟨(c5_post_messages_decode traceHandlers ⟨"POST", "/messages", "abc"⟩
      ⟨"/messages".toList, none⟩ rfl rfl rfl).1 (by decide),
   (c5_post_messages_decode traceHandlers ⟨"POST", "/messages", "123"⟩
      ⟨"/messages".toList, none⟩ rfl rfl rfl).2 123 (by decide)⟩

/-- Claim C6: DELETE /messages/42 invokes the deletion handler with
server_id 42; DELETE /messages (one segment) and DELETE /messages/abc
(non-numeric id) are rejected with InvalidRequest, no handler invoked
(the collaborators are universally quantified). -/
theorem c6_delete_messages_examples {μ ρ : Type} (h : Handlers μ ρ) :
    handle_rpc_call h ⟨"DELETE", "/messages/42", ""⟩ = .ok (h.delete_message 42) ∧
    handle_rpc_call h ⟨"DELETE", "/messages", ""⟩ = .invalidRequest ∧
    handle_rpc_call h ⟨"DELETE", "/messages/abc", ""⟩ = .invalidRequest := by
  exact ⟨rfl, rfl, rfl⟩

/-- Claim C7: a DELETE whose URI path is /block_list/ followed by a
slash-free key invokes the unban handler with that key verbatim — no
normalization, trimming or validation — and its result is propagated; in
particular DELETE /block_list/abc123 unbans "abc123". -/
theorem c7_unban_verbatim {μ ρ : Type} (h : Handlers μ ρ) (uri : Uri) (k : List Char)
    (hp : uri.path = "/block_list/".toList ++ k) (hk : k.all (· != '/') = true) :
    handle_delete_rpc_call h uri = .ok (h.unban k) ∧
    handle_rpc_call h ⟨"DELETE", "/block_list/abc123", ""⟩ =
      .ok (h.unban "abc123".toList) := by
  constructor
  · have hmf : ("/messages".toList.isPrefixOf uri.path) = false := by rw [hp]; rfl
    have hbt : ("/block_list".toList.isPrefixOf uri.path) = true := by rw [hp]; rfl
    have htail : uri.path.tail = "block_list".toList ++ '/' :: k := by rw [hp]; rfl
    rw [handle_delete_rpc_call, if_neg (by rw [hmf]; exact Bool.false_ne_true),
      if_pos hbt, htail, splitSlash_two _ k (by decide) hk, if_neg (by simp)]
    rfl
  · rfl

/-- Witness for C7 at the key abc123. -/
theorem c7_witness :
    ((⟨"/block_list/abc123".toList, none⟩ : Uri).path =
        "/block_list/".toList ++ "abc123".toList ∧
      ("abc123".toList.all (· != '/')) = true) ∧
    handle_delete_rpc_call traceHandlers ⟨"/block_list/abc123".toList, none⟩ =
      .ok (.unbanKey "abc123".toList) :=
  ⟨⟨by decide, by decide⟩,
    (c7_unban_verbatim traceHandlers ⟨"/block_list/abc123".toList, none⟩ "abc123".toList
      (by decide) (by decide)).1⟩

/-- Claim C8: for a GET call, the path is matched by exact equality
against the five-entry table, and any path equal to none of the five —
partial matches included — is rejected with InvalidRequest. -/
theorem c8_get_exact_path_table {μ ρ : Type} (h : Handlers μ ρ) (c : RpcCall) (uri : Uri)
    (opts : QueryOptions) (hm : c.method = "GET") (hu : parseUri c.endpoint = some uri)
    (hq : getQueryOptions uri = some opts) :
    (uri.path = "/messages".toList → handle_rpc_call h c = .ok (h.get_messages opts)) ∧
    (uri.path = "/deleted_messages".toList →
      handle_rpc_call h c = .ok (h.get_deleted_messages opts)) ∧
    (uri.path = "/moderators".toList → handle_rpc_call h c = .ok h.get_moderators) ∧
    (uri.path = "/block_list".toList → handle_rpc_call h c = .ok h.get_banned_public_keys) ∧
    (uri.path = "/member_count".toList → handle_rpc_call h c = .ok h.get_member_count) ∧
    (uri.path ∉ ["/messages".toList, "/deleted_messages".toList, "/moderators".toList,
        "/block_list".toList, "/member_count".toList] →
      handle_rpc_call h c = .invalidRequest) := by
  have hd : handle_rpc_call h c = handle_get_rpc_call h uri := by
    simp [handle_rpc_call, hu, hm]
  refine ⟨?_, ?_, ?_, ?_, ?_, ?_⟩ <;> intro hpath
  · rw [hd]; simp only [handle_get_rpc_call, hq]; rw [hpath]; rfl
  · rw [hd]; simp only [handle_get_rpc_call, hq]; rw [hpath]; rfl
  · rw [hd]; simp only [handle_get_rpc_call, hq]; rw [hpath]; rfl
  · rw [hd]; simp only [handle_get_rpc_call, hq]; rw [hpath]; rfl
  · rw [hd]; simp only [handle_get_rpc_call, hq]; rw [hpath]; rfl
  · rw [hd]
    simp only [List.mem_cons, List.not_mem_nil, or_false, not_or] at hpath
    obtain ⟨h1, h2, h3, h4, h5⟩ := hpath
    simp only [handle_get_rpc_call, hq]
    rw [if_neg h1, if_neg h2, if_neg h3, if_neg h4, if_neg h5]

/-- Witness for C8 at the unknown path /unknown. -/
theorem c8_witness :
    getQueryOptions ⟨"/unknown".toList, none⟩ = some ⟨none, none⟩ ∧
    handle_rpc_call traceHandlers ⟨"GET", "/unknown", ""⟩ = .invalidRequest :=
  ⟨rfl,
    (c8_get_exact_path_table traceHandlers ⟨"GET", "/unknown", ""⟩ ⟨"/unknown".toList, none⟩
      ⟨none, none⟩ rfl rfl rfl).2.2.2.2.2 (by decide)⟩

/-- Claim C10: DELETE route selection is a raw string prefix test — any
path whose text begins with /messages is decided entirely by the
message-deletion branch (outcome: InvalidRequest or the deletion handler
with the parsed id, never the unban branch); concretely /messagesX/5
deletes message 5 and /messages/abc is rejected outright. -/
theorem c10_delete_messages_prefix_exclusive (uri : Uri)
    (hpre : ("/messages".toList.isPrefixOf uri.path) = true) :
    (handle_delete_rpc_call traceHandlers uri = .invalidRequest ∨
      ∃ id, handle_delete_rpc_call traceHandlers uri = .ok (.deleteMessage id)) ∧
    handle_rpc_call traceHandlers ⟨"DELETE", "/messagesX/5", ""⟩ = .ok (.deleteMessage 5) ∧
    handle_rpc_call traceHandlers ⟨"DELETE", "/messages/abc", ""⟩ = .invalidRequest := by
  refine ⟨?_, rfl, rfl⟩
  rw [handle_delete_rpc_call, if_pos hpre]
  by_cases hlen : (splitSlash uri.path.tail).length = 2
  · rw [if_neg (by simp [hlen])]
    cases hid : parseI64 ((splitSlash uri.path.tail).getD 1 []) with
    | none => left; rfl
    | some id => right; exact ⟨id, rfl⟩
  · rw [if_pos hlen]
    left; rfl

/-- Witness for C10 at the path /messagesX/5. -/
theorem c10_witness :
    ("/messages".toList.isPrefixOf "/messagesX/5".toList) = true ∧
    ((handle_delete_rpc_call traceHandlers ⟨"/messagesX/5".toList, none⟩ = .invalidRequest ∨
      ∃ id, handle_delete_rpc_call traceHandlers ⟨"/messagesX/5".toList, none⟩ =
        .ok (.deleteMessage id)) ∧
    handle_rpc_call traceHandlers ⟨"DELETE", "/messagesX/5", ""⟩ = .ok (.deleteMessage 5) ∧
    handle_rpc_call traceHandlers ⟨"DELETE", "/messages/abc", ""⟩ = .invalidRequest) :=
  ⟨by decide, c10_delete_messages_prefix_exclusive ⟨"/messagesX/5".toList, none⟩ (by decide)⟩

end Rpc
